import Mathlib

/-!
Verification of the MCP energy-device core (context-path addressing,
SunSpec model registry, device synchronizer, discovery engine) against
its natural-language specification.  Each Python function of the
repository that a claim touches is embedded as an executable Lean
definition mirroring the source control flow; theorems then settle the
claims.
-/

namespace MCP

/-- Raw values travelling through the protocol, as the relevant Python
fragment manipulates them: `vNone` is Python `None` (JSON null / absent),
`vFloat n` models an IEEE double carrying the exact integer value `n`
(the fragment these claims exercise; exact for `|n| < 2^53`). -/
inductive Val where
  | vNone : Val
  | vBool (b : Bool) : Val
  | vInt (n : Int) : Val
  | vFloat (n : Int) : Val
  | vStr (s : String) : Val
deriving DecidableEq, Repr

/-- Python `str(value)` on the modelled value fragment
(`str(3.0) = "3.0"`, `str(True) = "True"`, `str(None) = "None"`). -/
def pyStr : Val → String
  | .vNone => "None"
  | .vBool true => "True"
  | .vBool false => "False"
  | .vInt n => toString n
  | .vFloat n => toString n ++ ".0"
  | .vStr s => s

/-- Integer denoted by a list of decimal digit characters
(Python `int("0012") = 12`). -/
def intOfDigits (cs : List Char) : Int :=
  cs.foldl (fun acc c => 10 * acc + (Int.ofNat c.toNat - 48)) 0

/-- Decimal-integer-literal parse: optional sign followed by one or more
digits.  Modelled from Python `int(s)` restricted to the plain
optionally-signed decimal literals these claims exercise (Python also
strips whitespace and accepts underscores; those forms are outside this
model). -/
def pyIntOfString (s : String) : Option Int :=
  match s.toList with
  | [] => none
  | '-' :: rest => if rest ≠ [] ∧ rest.all Char.isDigit then some (-(intOfDigits rest)) else none
  | '+' :: rest => if rest ≠ [] ∧ rest.all Char.isDigit then some (intOfDigits rest) else none
  | cs => if cs.all Char.isDigit then some (intOfDigits cs) else none

/-- Python `int(value)`: `none` models a raised `ValueError`/`TypeError`. -/
def pyIntCoerce : Val → Option Int
  | .vNone => none
  | .vBool true => some 1
  | .vBool false => some 0
  | .vInt n => some n
  | .vFloat n => some n
  | .vStr s => pyIntOfString s

/-- Python `float(value)` on the modelled fragment, producing the exact
integer a successful coercion denotes; `none` models a raised error.
String input is modelled on integer literals (fractional and exponent
literals are outside the exact-integer fragment). -/
def pyFloatCoerce : Val → Option Int
  | .vNone => none
  | .vBool true => some 1
  | .vBool false => some 0
  | .vInt n => some n
  | .vFloat n => some n
  | .vStr s => pyIntOfString s

/-- Python `bool(value)`: total, never raises. -/
def pyBool : Val → Bool
  | .vNone => false
  | .vBool b => b
  | .vInt n => n ≠ 0
  | .vFloat n => n ≠ 0
  | .vStr s => s ≠ ""

end MCP

namespace MCP.Context
/-!  Embedding of `src/context.py` (`ContextPathParser`).  Paths are
strings; Python's `str.split('.')` and `'.'.join` are embedded at the
character-list level so their algebra can be proved. -/

/-- Python `s.split('.')` on a character list: always returns at least
one (possibly empty) group; `split "" = [""]`. -/
def splitDot : List Char → List (List Char)
  | [] => [[]]
  | c :: rest =>
    let r := splitDot rest
    if c = '.' then [] :: r
    else
      match r with
      | [] => [[c]]
      | g :: gs => (c :: g) :: gs

/-- Python `s.split('.')` for strings. -/
def pySplitDot (s : String) : List String :=
  (splitDot s.toList).map List.asString

/-- Python `'.'.join(parts)`. -/
def pyJoinDot : List String → String
  | [] => ""
  | [p] => p
  | p :: ps => p ++ "." ++ pyJoinDot ps

/-- `ContextPathParser.parse_context_path`: empty input yields
`("", none)`; a single segment is returned whole with no subcontext
parts; otherwise the head segment and the remaining segments. -/
def parse_context_path (s : String) : String × Option (List String) :=
  if s = "" then ("", none)
  else
    match pySplitDot s with
    | [] => (s, none)
    | [_] => (s, none)
    | p :: rest => (p, some rest)

/-- `ContextPathParser.build_context_path`: `id` unchanged when the
subcontext parts are absent or empty, else the dot-join. -/
def build_context_path (context_id : String) (subcontext_parts : Option (List String)) : String :=
  match subcontext_parts with
  | none => context_id
  | some [] => context_id
  | some ps => context_id ++ "." ++ pyJoinDot ps

/-- `ContextPathParser.is_valid_context_path`. -/
def is_valid_context_path (s : String) : Bool :=
  if s = "" then false
  else
    match pySplitDot s with
    | [] => false
    | parts => (parts.headD "" ≠ "") && parts.all (fun p => p ≠ "")

/-- `ContextPathParser.get_context_type`: every alphabetic character of
the first segment, concatenated in order and lower-cased; `"unknown"`
for empty input or when the first segment has no alphabetic character. -/
def get_context_type (s : String) : String :=
  if s = "" then "unknown"
  else
    let first := (pySplitDot s).headD ""
    let context_type := first.toList.filter Char.isAlpha
    if context_type.isEmpty then "unknown"
    else (context_type.map Char.toLower).asString

/-- `ContextPathParser.get_context_index`: the integer formed by every
digit character of the first segment concatenated in order; if the first
segment has no digit, the second segment when it is purely numeric;
otherwise `none`. -/
def get_context_index (s : String) : Option Int :=
  if s = "" then none
  else
    let parts := pySplitDot s
    let digits := ((parts.headD "").toList.filter Char.isDigit)
    if digits ≠ [] then some (intOfDigits digits)
    else
      match parts with
      | _ :: second :: _ =>
        if second ≠ "" ∧ second.toList.all Char.isDigit then
          some (intOfDigits second.toList)
        else none
      | _ => none

/-- Spec-worded variant of `get_context_type` (for refutation): the run
of alphabetic characters at the START of the first segment, lower-cased;
`"unknown"` when that run is empty. -/
def get_context_type_specRead (s : String) : String :=
  if s = "" then "unknown"
  else
    let first := (pySplitDot s).headD ""
    let run := first.toList.takeWhile Char.isAlpha
    if run.isEmpty then "unknown" else (run.map Char.toLower).asString

/-- All alphabetic characters of a character list, in order. -/
def collectAlpha : List Char → List Char
  | [] => []
  | c :: cs => if c.isAlpha then c :: collectAlpha cs else collectAlpha cs

/-- All digit characters of a character list, in order. -/
def collectDigits : List Char → List Char
  | [] => []
  | c :: cs => if c.isDigit then c :: collectDigits cs else collectDigits cs

/-- Amended reading of `getType`: every alphabetic character of the
first segment, concatenated in order and lower-cased; `"unknown"` for
empty input or when the first segment has no alphabetic character. -/
def get_context_type_amended (s : String) : String :=
  if s = "" then "unknown"
  else
    match collectAlpha ((pySplitDot s).headD "").toList with
    | [] => "unknown"
    | cs => (cs.map Char.toLower).asString

/-- Amended reading of `getIndex`: the integer formed by every digit
character of the first segment concatenated in order; when the first
segment has no digit, the second segment when it is purely numeric;
otherwise `none`. -/
def get_context_index_amended (s : String) : Option Int :=
  if s = "" then none
  else
    let parts := pySplitDot s
    match collectDigits ((parts.headD "").toList) with
    | c :: cs => some (intOfDigits (c :: cs))
    | [] =>
      match parts with
      | _ :: second :: _ =>
        if second ≠ "" ∧ second.toList.all Char.isDigit then
          some (intOfDigits second.toList)
        else none
      | _ => none

/-- Digit runs of a character list, in order of appearance. -/
def digitRuns : List Char → List (List Char)
  | [] => []
  | c :: rest =>
    if c.isDigit then
      match digitRuns rest with
      | [] => [[c]]
      | r :: rs =>
        match rest with
        | [] => [[c]]
        | d :: _ => if d.isDigit then (c :: r) :: rs else [c] :: (r :: rs)
    else digitRuns rest

/-- Spec-worded variant of `get_context_index` (for refutation): the
FIRST run of digit characters in the first segment; same second-segment
fallback; `none` when neither yields digits. -/
def get_context_index_specRead (s : String) : Option Int :=
  if s = "" then none
  else
    let parts := pySplitDot s
    match digitRuns (parts.headD "").toList with
    | run :: _ => some (intOfDigits run)
    | [] =>
      match parts with
      | _ :: second :: _ =>
        if second ≠ "" ∧ second.toList.all Char.isDigit then
          some (intOfDigits second.toList)
        else none
      | _ => none

end MCP.Context

namespace MCP.SunSpec
/-!  Embedding of `src/sunspec.py` (`SunSpecModels`): the fixed model
table and the `parse_value` / `format_value` / `validate_value`
operations over it. -/

/-- A point definition row of the built-in model table. -/
structure PointDef where
  name : String
  type : String
  unit : Option String
  access : Option String
deriving DecidableEq, Repr

/-- `SunSpecModels.get_point_info` over the built-in `_load_models`
table (models 1, 101, 160, 124; descriptions, which no operation reads,
are omitted). -/
def get_point_info (model_id : Int) (point_id : String) : Option PointDef :=
  if model_id = 1 then
    match point_id with
    | "Mn" => some ⟨"Manufacturer", "string", none, none⟩
    | "Md" => some ⟨"Model", "string", none, none⟩
    | "SN" => some ⟨"SerialNumber", "string", none, none⟩
    | "Ver" => some ⟨"Version", "string", none, none⟩
    | _ => none
  else if model_id = 101 then
    match point_id with
    | "A" => some ⟨"AC Current", "float", some "A", some "R"⟩
    | "AphA" => some ⟨"Phase A Current", "float", some "A", some "R"⟩
    | "PhVphA" => some ⟨"Phase A Voltage", "float", some "V", some "R"⟩
    | "W" => some ⟨"AC Power", "float", some "W", some "R"⟩
    | "Hz" => some ⟨"Frequency", "float", some "Hz", some "R"⟩
    | "WH" => some ⟨"Energy", "float", some "Wh", some "R"⟩
    | "St" => some ⟨"Operating State", "enum16", none, some "R"⟩
    | _ => none
  else if model_id = 160 then
    match point_id with
    | "ID" => some ⟨"ID", "uint16", none, some "R"⟩
    | "DCA" => some ⟨"DC Current", "float", some "A", some "R"⟩
    | "DCV" => some ⟨"DC Voltage", "float", some "V", some "R"⟩
    | "DCW" => some ⟨"DC Power", "float", some "W", some "R"⟩
    | "TmpCab" => some ⟨"Cabinet Temperature", "float", some "C", some "R"⟩
    | "St" => some ⟨"Operating State", "enum16", none, some "R"⟩
    | _ => none
  else if model_id = 124 then
    match point_id with
    | "ChaState" => some ⟨"State of Charge", "float", some "%", some "R"⟩
    | "ChaSt" => some ⟨"Battery Status", "enum16", none, some "R"⟩
    | "W" => some ⟨"Power", "float", some "W", some "R"⟩
    | "WChaMax" => some ⟨"Max Charge Rate", "float", some "W", some "RW"⟩
    | "WDisChaMax" => some ⟨"Max Discharge Rate", "float", some "W", some "RW"⟩
    | _ => none
  else none

/-- `SunSpecModels.parse_value`: coerce to the declared type; unknown
model/point and any coercion failure return the raw value unchanged. -/
def parse_value (model_id : Int) (point_id : String) (value : Val) : Val :=
  match get_point_info model_id point_id with
  | none => value
  | some info =>
    let data_type := info.type
    if data_type = "float" then
      match pyFloatCoerce value with
      | some n => .vFloat n
      | none => value
    else if data_type = "uint16" ∨ data_type = "uint32" ∨ data_type = "uint64"
        ∨ data_type = "int16" ∨ data_type = "int32" ∨ data_type = "int64"
        ∨ data_type = "enum16" then
      match pyIntCoerce value with
      | some n => .vInt n
      | none => value
    else if data_type = "string" then .vStr (pyStr value)
    else if data_type = "boolean" then .vBool (pyBool value)
    else value

/-- Two-fraction-digit rendering of a float holding the exact integer
`n` (Python `f"\x7bfloat(n):.2f\x7d"` for `|n| < 2^53`). -/
def twoDec (n : Int) : String := toString n ++ ".00"

/-- `SunSpecModels.format_value`: `None` renders as `"N/A"`; an unknown
point as the default string form; a float-typed point with two fraction
digits; any declared unit is appended after a single space; a coercion
failure in the float branch falls back to the default string form. -/
def format_value (model_id : Int) (point_id : String) (value : Val) : String :=
  match value with
  | .vNone => "N/A"
  | v =>
    match get_point_info model_id point_id with
    | none => pyStr v
    | some info =>
      let unit := (info.unit).getD ""
      let formatted? :=
        if info.type = "float" then (pyFloatCoerce v).map twoDec
        else some (pyStr v)
      match formatted? with
      | none => pyStr v
      | some f => if unit ≠ "" then f ++ " " ++ unit else f

/-- `SunSpecModels.validate_value`: unknown point is valid; unsigned
integer types additionally reject negative results; a coercion failure
is invalid. -/
def validate_value (model_id : Int) (point_id : String) (value : Val) : Bool :=
  match get_point_info model_id point_id with
  | none => true
  | some info =>
    let data_type := info.type
    if data_type = "float" then (pyFloatCoerce value).isSome
    else if data_type = "uint16" ∨ data_type = "uint32" ∨ data_type = "uint64" then
      match pyIntCoerce value with
      | some n => decide (0 ≤ n)
      | none => false
    else if data_type = "int16" ∨ data_type = "int32" ∨ data_type = "int64"
        ∨ data_type = "enum16" then
      (pyIntCoerce value).isSome
    else true

end MCP.SunSpec

namespace MCP.Store
/-!  Rows of the external store referenced by `src/device.py` and
`src/discovery.py`.  Modelled from the spec: the repository's `models`
module (the store schema) is not under `src/`; §3 of the specification
enumerates the fields, which the `src/` code reads and writes by
attribute.  Event rows reference their device by the device's stable
uuid (the store's surrogate row id is not modelled). -/

/-- Modelled from the spec: a `DataPoint` row — point id, display name,
declared type, unit, access mode, current value (string-coerced,
nullable), last-updated timestamp (nullable). -/
structure DataPoint where
  point_id : String
  name : String
  data_type : Option String
  unit : Option String
  access : Option String
  description : Option String
  value : Option String
  last_updated : Option Nat
deriving DecidableEq, Repr

/-- Modelled from the spec: a `Context` row — context id unique per
device, type tag, optional model id/name, description — together with
its owned points. -/
structure Context where
  context_id : String
  context_type : String
  model_id : Option Int
  model_name : Option String
  description : String
  points : List DataPoint
deriving DecidableEq, Repr

/-- Modelled from the spec: a `Device` row — stable uuid, descriptive
fields, network address, online flag, last-seen timestamp. -/
structure Device where
  uuid : String
  name : String
  model : Option String
  manufacturer : Option String
  firmware_version : Option String
  protocol_version : Option String
  ip_address : String
  port : Nat
  is_online : Bool
  last_seen : Nat
deriving DecidableEq, Repr

/-- Modelled from the spec: an append-only `DeviceEvent` row — kind,
message, optional details — referencing its device by uuid. -/
structure DeviceEvent where
  device_uuid : String
  event_type : String
  message : String
  details : Option String
deriving DecidableEq, Repr

end MCP.Store

namespace MCP.Device
/-!  Embedding of `src/device.py` (`DeviceManager`): the read-refresh
point merge and the multi-point write path. -/

open MCP.Store

/-- One payload entry applied to one stored point by
`DeviceManager._update_context_points`: a point present in the payload
is updated only when the incoming value is non-null and differs from the
stored string value, in which case the last-updated timestamp moves. -/
def refreshStep (now : Nat) (p : DataPoint) (pv : String × Val) : DataPoint :=
  if p.point_id = pv.1 then
    if pv.2 ≠ Val.vNone then
      let str_value := pyStr pv.2
      if p.value ≠ some str_value then
        { p with value := some str_value, last_updated := some now }
      else p
    else p
  else p

/-- `DeviceManager._update_context_points`: merge a read payload
(point id → raw value) into the context's stored points. -/
def update_context_points (points : List DataPoint) (points_data : List (String × Val))
    (now : Nat) : List DataPoint :=
  points_data.foldl (fun acc pv => acc.map (fun p => refreshStep now p pv)) points

/-- The write-path point resolution of `DeviceManager.write_device_context`:
keep a requested pair only when a point with that id exists in the
context and its access mode is `W` or `RW`. -/
def validated_points (points : List DataPoint) (points_data : List (String × Val)) :
    List (String × Val) :=
  points_data.filter (fun pv =>
    match points.find? (fun p => p.point_id = pv.1) with
    | some p => p.access = some "W" ∨ p.access = some "RW"
    | none => false)

/-- The success branch of `write_device_context`: every validated pair
is written back to the store (string-coerced value, fresh timestamp). -/
def persistPoints (points : List DataPoint) (validated : List (String × Val))
    (now : Nat) : List DataPoint :=
  validated.foldl
    (fun acc pv =>
      acc.map (fun p =>
        if p.point_id = pv.1 then
          { p with value := some (pyStr pv.2), last_updated := some now }
        else p))
    points

/-- The `mcp` body of a write response as `write_device_context`
receives it: the success flag, the acknowledged point set echoed in the
response's `points`/`updated_points` field, and an optional error. -/
structure WriteResponse where
  success : Bool
  updated_points : Option (List String)
  error : Option String
deriving DecidableEq, Repr

/-- Outcome of one `write_device_context` call: the returned
success/error dict, the context rows after the call, whether
`protocol.write_context` was invoked, and the events appended. -/
structure WriteCallResult where
  ok : Bool
  error : Option String
  ctxAfter : Option Context
  sent : Bool
  newEvents : List DeviceEvent
deriving DecidableEq, Repr

/-- `DeviceManager.write_device_context`: missing/offline device and
missing context fail first; then the request is resolved against
existing writable points; an empty resolution fails with
`"No valid writable points"` before any network call; otherwise one
write message is sent and, when the response reports success, every
validated point — the response's echoed point set is not consulted — is
persisted and a `write` event is appended.  `response` is the value the
transport returns for the single send (`none` = no/invalid response). -/
def write_device_context (device : Option Device) (context : Option Context)
    (points_data : List (String × Val)) (response : Option WriteResponse)
    (now : Nat) : WriteCallResult :=
  match device with
  | none => ⟨false, some "Device not found or offline", context, false, []⟩
  | some dev =>
    if ¬ dev.is_online then
      ⟨false, some "Device not found or offline", context, false, []⟩
    else
      match context with
      | none => ⟨false, some "Context not found", none, false, []⟩
      | some ctx =>
        let validated := validated_points ctx.points points_data
        if validated.isEmpty then
          ⟨false, some "No valid writable points", some ctx, false, []⟩
        else
          match response with
          | none => ⟨false, some "Failed to write to device", some ctx, true, []⟩
          | some r =>
            if r.success then
              let newPts := persistPoints ctx.points validated now
              let event : DeviceEvent :=
                ⟨dev.uuid, "write", "Wrote values to " ++ ctx.context_id,
                 some ("Points: " ++ String.intercalate ", " (validated.map (·.1)))⟩
              ⟨true, none, some { ctx with points := newPts }, true, [event]⟩
            else
              ⟨false, some ((r.error).getD "Unknown error"), some ctx, true, []⟩

end MCP.Device

namespace MCP.Discovery
/-!  Embedding of `src/discovery.py` (`DeviceDiscovery`): one discovery
round over the device registry — response processing, device upsert,
context-point reconciliation and the terminal liveness pass.  Context
and point upserts touch only `Context`/`DataPoint` rows, never `Device`
rows, so the round over the device registry is modelled without them;
the point reconciliation (`_process_context_points`) is embedded
separately below. -/

open MCP.Store

/-- The `mcp.device` object of a discovery response
(`protocolVersion` falls back to `version` when absent). -/
structure DeviceInfo where
  uuid : Option String
  name : Option String
  model : Option String
  manufacturer : Option String
  firmwareVersion : Option String
  protocolVersion : Option String
  version : Option String
deriving DecidableEq, Repr

/-- One accepted broadcast datagram as `discover_devices` consumes it:
the embedded device object plus the annotated sender address/port. -/
structure DiscoveryResponse where
  device : Option DeviceInfo
  source_ip : Option String
  source_port : Option Nat
deriving DecidableEq, Repr

/-- The device registry slice a discovery round reads and writes:
device rows plus the append-only event log. -/
structure RegistryState where
  devices : List Device
  events : List DeviceEvent
deriving DecidableEq, Repr

/-- `DeviceDiscovery._process_device_info`: upsert one responding device
by uuid.  A known device has every mutable field — including `last_seen`
and `is_online` — overwritten; the source then tests
`if not existing_device.is_online` on the row it has just overwritten
(`is_online` is already `True`), so the "Device came online"
`status_change` event is dead code and is never emitted — the test on
the updated row is kept here to mirror the source.  An unknown uuid
creates an online row and a `discovery` event.  Returns the processed
uuid. -/
def process_device_info (st : RegistryState) (info : DeviceInfo) (ip_address : String)
    (port : Option Nat) (now : Nat) : RegistryState × Option String :=
  match info.uuid with
  | none => (st, none)
  | some uuid =>
    if uuid = "" then (st, none)
    else
      let device_port := match port with | none => 47808 | some 0 => 47808 | some p => p
      let devName := (info.name).getD ("Device-" ++ uuid.take 8)
      match st.devices.find? (fun d => d.uuid = uuid) with
      | some existing =>
        let updated : Device :=
          { existing with
            name := devName
            model := info.model
            manufacturer := info.manufacturer
            firmware_version := info.firmwareVersion
            protocol_version := (info.protocolVersion).orElse (fun _ => info.version)
            ip_address := ip_address
            port := device_port
            is_online := true
            last_seen := now }
        let devices' := st.devices.map (fun d => if d.uuid = uuid then updated else d)
        let events' :=
          if ¬ updated.is_online then
            st.events ++ [⟨uuid, "status_change", "Device came online",
              some ("IP: " ++ ip_address ++ ", Port: " ++ toString device_port)⟩]
          else st.events
        (⟨devices', events'⟩, some uuid)
      | none =>
        let newDev : Device :=
          ⟨uuid, devName, info.model, info.manufacturer, info.firmwareVersion,
           (info.protocolVersion).orElse (fun _ => info.version),
           ip_address, device_port, true, now⟩
        let ev : DeviceEvent :=
          ⟨uuid, "discovery", "Device discovered",
           some ("Model: " ++ (info.model).getD "None"
             ++ ", Manufacturer: " ++ (info.manufacturer).getD "None")⟩
        (⟨st.devices ++ [newDev], st.events ++ [ev]⟩, some uuid)

/-- One iteration of the response-processing loop of
`DeviceDiscovery.discover_devices`: a response without an embedded
device object, without a (non-empty) uuid or without a source address is
skipped; otherwise the device is upserted and its uuid collected. -/
def responseStep (now : Nat) (acc : RegistryState × List String)
    (r : DiscoveryResponse) : RegistryState × List String :=
  match r.device with
  | none => acc
  | some info =>
    match info.uuid with
    | none => acc
    | some uuid =>
      if uuid = "" then acc
      else
        match r.source_ip with
        | none => acc
        | some ip =>
          if ip = "" then acc
          else
            match process_device_info acc.1 info ip r.source_port now with
            | (st', some u) => (st', acc.2 ++ [u])
            | (st', none) => (st', acc.2)

/-- The response-processing loop of `DeviceDiscovery.discover_devices`. -/
def processResponses (st : RegistryState) (responses : List DiscoveryResponse)
    (now : Nat) : RegistryState × List String :=
  responses.foldl (responseStep now) (st, [])

/-- `DeviceDiscovery._update_device_status` — the terminal liveness
pass: every device row currently online whose uuid is not among the
round's discovered uuids goes offline and gets one `status_change`
("Device went offline") event. -/
def update_device_status (st : RegistryState) (discovered : List String) : RegistryState :=
  ⟨st.devices.map (fun d =>
      if d.is_online ∧ d.uuid ∉ discovered then { d with is_online := false } else d),
   st.events ++ st.devices.filterMap (fun d =>
      if d.is_online ∧ d.uuid ∉ discovered then
        some ⟨d.uuid, "status_change", "Device went offline", none⟩
      else none)⟩

/-- The uuids a round discovers: those of its processed responses. -/
def discovered_uuids (st : RegistryState) (responses : List DiscoveryResponse)
    (now : Nat) : List String :=
  (processResponses st responses now).2

/-- One full round of `DeviceDiscovery.discover_devices` over the device
registry: process every accepted response, then run the liveness pass
over the collected uuid set. -/
def discovery_round (st : RegistryState) (responses : List DiscoveryResponse)
    (now : Nat) : RegistryState :=
  update_device_status (processResponses st responses now).1
    (processResponses st responses now).2

/-- One embedded point definition inside a context payload.
`_process_context_points` skips entries that are not JSON objects
(`nonDict`); in an object, `value` is `vNone` when absent or null. -/
inductive PointPayload where
  | nonDict (v : Val) : PointPayload
  | obj (name : Option String) (ty : Option String) (unit : Option String)
      (access : Option String) (descr : Option String) (value : Val) : PointPayload
deriving DecidableEq, Repr

/-- One payload entry of `DeviceDiscovery._process_context_points`
applied to the accumulated point rows: an existing point (by the
context's original point-id set) has its descriptive metadata replaced
unconditionally and its value and timestamp replaced only when the
incoming value is non-null; an unknown point id is inserted. -/
def pointStep (existingIds : List String) (now : Nat) (acc : List DataPoint)
    (entry : String × PointPayload) : List DataPoint :=
  match entry.2 with
  | .nonDict _ => acc
  | .obj name ty unit access descr value =>
    let pid := entry.1
    let pname := name.getD pid
    if pid ∈ existingIds then
      acc.map (fun p =>
        if p.point_id = pid then
          let p1 := { p with name := pname, data_type := ty, unit := unit,
                             access := access, description := descr }
          if value ≠ Val.vNone then
            { p1 with value := some (pyStr value), last_updated := some now }
          else p1
        else p)
    else
      acc ++ [⟨pid, pname, ty, unit, access, descr,
        (if value ≠ Val.vNone then some (pyStr value) else none), none⟩]

/-- `DeviceDiscovery._process_context_points`: reconcile a context's
stored points with the embedded point definitions of one contexts
response. -/
def process_context_points (points : List DataPoint)
    (payload : List (String × PointPayload)) (now : Nat) : List DataPoint :=
  let existingIds := points.map (·.point_id)
  payload.foldl (pointStep existingIds now) points

/-- Whether a payload entry supplies no value for its point: a non-dict
entry has none, and an object entry supplies none when its `value` is
absent or null. -/
def valueAbsent : PointPayload → Bool
  | .nonDict _ => true
  | .obj _ _ _ _ _ v => v = Val.vNone

end MCP.Discovery

namespace MCP.Context

theorem splitDot_of_not_mem (l : List Char) (h : '.' ∉ l) : splitDot l = [l] := by
  induction l with
  | nil => rfl
  | cons c cs ih =>
    have hc : ¬ c = '.' := fun e => h (e ▸ List.mem_cons_self c cs)
    have hcs : '.' ∉ cs := fun m => h (List.mem_cons_of_mem _ m)
    simp [splitDot, hc, ih hcs]

theorem splitDot_append (a b : List Char) (h : '.' ∉ a) :
    splitDot (a ++ '.' :: b) = a :: splitDot b := by
  induction a with
  | nil => simp [splitDot]
  | cons c cs ih =>
    have hc : ¬ c = '.' := fun e => h (e ▸ List.mem_cons_self c cs)
    have hcs : '.' ∉ cs := fun m => h (List.mem_cons_of_mem _ m)
    simp [splitDot, hc, ih hcs]

theorem toList_asString (l : List Char) : (List.asString l).toList = l := rfl

theorem asString_toList (s : String) : (s.toList).asString = s := rfl

theorem toList_append (s t : String) : (s ++ t).toList = s.toList ++ t.toList := rfl

theorem toList_ne_nil (s : String) (h : s ≠ "") : s.toList ≠ [] := by
  intro hl
  exact h (by cases s with | mk d => cases hl; rfl)

theorem pySplitDot_single (s : String) (h : '.' ∉ s.toList) : pySplitDot s = [s] := by
  unfold pySplitDot
  rw [splitDot_of_not_mem _ h]
  rfl

theorem pySplitDot_pyJoinDot (ps : List String) (hne : ps ≠ [])
    (h : ∀ p ∈ ps, '.' ∉ p.toList) : pySplitDot (pyJoinDot ps) = ps := by
  induction ps with
  | nil => exact absurd rfl hne
  | cons p ps ih =>
    cases ps with
    | nil =>
      have hp : '.' ∉ p.toList := h p (List.mem_cons_self _ _)
      simpa [pyJoinDot] using pySplitDot_single p hp
    | cons q qs =>
      have hp : '.' ∉ p.toList := h p (List.mem_cons_self _ _)
      have hrest : ∀ x ∈ q :: qs, '.' ∉ x.toList :=
        fun x hx => h x (List.mem_cons_of_mem _ hx)
      have hJ : (pyJoinDot (p :: q :: qs)).toList
          = p.toList ++ '.' :: (pyJoinDot (q :: qs)).toList := by
        show (p ++ "." ++ pyJoinDot (q :: qs)).toList = _
        simp [toList_append]
      have ihq := ih (by simp) hrest
      unfold pySplitDot at ihq ⊢
      rw [hJ, splitDot_append _ _ hp]
      simp only [List.map_cons, asString_toList]
      rw [ihq]

/-- C5 (counterexample): the round-trip `parse(build(id, parts)) = (id, parts)`
fails as universally stated — a subcontext part containing a dot is split
apart by `parse`. -/
theorem parse_build_roundtrip_counterexample :
    parse_context_path (build_context_path "a" (some ["b.c"])) ≠ ("a", some ["b.c"]) := by
  decide

/-- C5 (amended): when the context id and every subcontext part are
dot-free, `parse_context_path` recovers from `build_context_path` the id
together with the parts (`none` standing for an empty part list); and on
every well-formed single-segment path, `build_context_path` applied to
the result of `parse_context_path` gives the path back. -/
theorem parse_build_roundtrip :
    (∀ (id : String) (parts : List String), '.' ∉ id.toList →
      (∀ p ∈ parts, '.' ∉ p.toList) →
      parse_context_path (build_context_path id (some parts))
        = (id, if parts.isEmpty then none else some parts))
    ∧ (∀ p : String, p ≠ "" → '.' ∉ p.toList →
      build_context_path (parse_context_path p).1 (parse_context_path p).2 = p) := by
  constructor
  · intro id parts hid hparts
    cases parts with
    | nil =>
      simp only [build_context_path, List.isEmpty_nil, if_pos rfl]
      by_cases hid0 : id = ""
      · subst hid0; rfl
      · unfold parse_context_path
        rw [if_neg hid0, pySplitDot_single id hid]
        simp
    | cons q qs =>
      have hjoin : ∀ x ∈ q :: qs, '.' ∉ x.toList := hparts
      have hbuild : build_context_path id (some (q :: qs))
          = id ++ "." ++ pyJoinDot (q :: qs) := rfl
      have hdata : (id ++ "." ++ pyJoinDot (q :: qs)).toList
          = id.toList ++ '.' :: (pyJoinDot (q :: qs)).toList := by
        simp [toList_append]
      have hsplit : pySplitDot (id ++ "." ++ pyJoinDot (q :: qs))
          = id :: q :: qs := by
        unfold pySplitDot
        rw [hdata, splitDot_append _ _ hid]
        simp only [List.map_cons, asString_toList]
        have := pySplitDot_pyJoinDot (q :: qs) (by simp) hjoin
        unfold pySplitDot at this
        rw [this]
      have hne : id ++ "." ++ pyJoinDot (q :: qs) ≠ "" := by
        intro he
        have : (id ++ "." ++ pyJoinDot (q :: qs)).toList = [] := by rw [he]; rfl
        rw [hdata] at this
        simp at this
      rw [hbuild]
      unfold parse_context_path
      rw [if_neg hne, hsplit]
      simp
  · intro p hne hdot
    have hp : parse_context_path p = (p, none) := by
      unfold parse_context_path
      rw [if_neg hne, pySplitDot_single p hdot]
    rw [hp]
    rfl

/-- C5 witness at a concrete path. -/
theorem parse_build_roundtrip_witness :
    parse_context_path (build_context_path "mppt" (some ["3"]))
        = ("mppt", if (["3"] : List String).isEmpty then none else some ["3"])
      ∧ build_context_path (parse_context_path "inverter1").1 (parse_context_path "inverter1").2
        = "inverter1" :=
  ⟨parse_build_roundtrip.1 "mppt" ["3"] (by decide) (by decide),
   parse_build_roundtrip.2 "inverter1" (by decide) (by decide)⟩

/-- C10: `parse_context_path` returns `("", none)` on empty input and
`(p, none)` on any single-segment (dot-free) input.  (Non-string input,
which the Python guard also maps to `("", none)`, is outside the typed
embedding.) -/
theorem parse_context_path_edge_cases (s : String) :
    (s = "" → parse_context_path s = ("", none))
    ∧ ('.' ∉ s.toList → parse_context_path s = (s, none)) := by
  constructor
  · intro h; subst h; rfl
  · intro hdot
    by_cases h0 : s = ""
    · subst h0; rfl
    · unfold parse_context_path
      rw [if_neg h0, pySplitDot_single s hdot]

/-- C10 witness at concrete inputs. -/
theorem parse_context_path_edge_cases_witness :
    parse_context_path "" = ("", none) ∧ parse_context_path "inverter1" = ("inverter1", none) :=
  ⟨(parse_context_path_edge_cases "").1 rfl,
   (parse_context_path_edge_cases "inverter1").2 (by decide)⟩

theorem collectAlpha_eq_filter (l : List Char) : collectAlpha l = l.filter Char.isAlpha := by
  induction l with
  | nil => rfl
  | cons c cs ih =>
    by_cases hc : c.isAlpha
    · simp [collectAlpha, List.filter_cons, hc, ih]
    · simp [collectAlpha, List.filter_cons, hc, ih]

theorem collectDigits_eq_filter (l : List Char) : collectDigits l = l.filter Char.isDigit := by
  induction l with
  | nil => rfl
  | cons c cs ih =>
    by_cases hc : c.isDigit
    · simp [collectDigits, List.filter_cons, hc, ih]
    · simp [collectDigits, List.filter_cons, hc, ih]

/-- C6 (counterexample): `get_context_type` is not the lower-cased run
of alphabetic characters at the start of the first segment, and
`get_context_index` is not the first run of digit characters — both
collect every such character of the segment, so the claim fails at
`"a1b"` and `"a1b2"`. -/
theorem get_context_type_index_counterexample :
    get_context_type "a1b" ≠ get_context_type_specRead "a1b"
      ∧ get_context_index "a1b2" ≠ get_context_index_specRead "a1b2" := by
  decide

/-- C6 (amended): `get_context_type` returns every alphabetic character
of the first segment concatenated in order and lower-cased (`"unknown"`
for empty input or when none exists); `get_context_index` returns the
integer formed by every digit character of the first segment
concatenated in order, falling back to the second segment only when it
is purely numeric, and `none` when neither yields digits; in particular
`getType "mppt.3" = "mppt"`, `getIndex "mppt.3" = 3`,
`getType "" = "unknown"` and `getIndex "" = none`. -/
theorem get_context_type_index_amended :
    (∀ s, get_context_type s = get_context_type_amended s)
    ∧ (∀ s, get_context_index s = get_context_index_amended s)
    ∧ get_context_type "mppt.3" = "mppt" ∧ get_context_index "mppt.3" = some 3
    ∧ get_context_type "" = "unknown" ∧ get_context_index "" = none := by
  have typeCore : ∀ l : List Char,
      (if (l.filter Char.isAlpha).isEmpty then "unknown"
       else ((l.filter Char.isAlpha).map Char.toLower).asString)
      = (match collectAlpha l with
         | [] => "unknown"
         | cs => (cs.map Char.toLower).asString) := by
    intro l
    rw [collectAlpha_eq_filter]
    cases h : l.filter Char.isAlpha with
    | nil => rfl
    | cons c cs => rfl
  have indexCore : ∀ (l : List Char) (fallback : Option Int),
      (if l.filter Char.isDigit ≠ [] then some (intOfDigits (l.filter Char.isDigit))
       else fallback)
      = (match collectDigits l with
         | c :: cs => some (intOfDigits (c :: cs))
         | [] => fallback) := by
    intro l fallback
    rw [collectDigits_eq_filter]
    cases h : l.filter Char.isDigit with
    | nil => simp
    | cons c cs => simp
  refine ⟨fun s => ?_, fun s => ?_, by decide, by decide, by decide, by decide⟩
  · unfold get_context_type get_context_type_amended
    by_cases h0 : s = ""
    · rw [if_pos h0, if_pos h0]
    · rw [if_neg h0, if_neg h0]
      exact typeCore ((pySplitDot s).headD "").toList
  · unfold get_context_index get_context_index_amended
    by_cases h0 : s = ""
    · rw [if_pos h0, if_pos h0]
    · rw [if_neg h0, if_neg h0]
      exact indexCore ((pySplitDot s).headD "").toList
        (match pySplitDot s with
         | _ :: second :: _ =>
           if second ≠ "" ∧ second.toList.all Char.isDigit then
             some (intOfDigits second.toList)
           else none
         | _ => none)

end MCP.Context

namespace MCP.SunSpec

/-- C8: for every model id and point id of the table — `format_value`
renders `None` as the fixed string `"N/A"`; an unknown point gets the
default string form with no unit; every float-typed point renders with
exactly two fraction digits (exact for integer-valued raws, whose
doubles are exact below `2^53`) and, when a unit is declared, a single
space plus that unit appended; every non-float known point (all of
which declare no unit in the table) renders in default string form; in
particular the float point `W` of model 101 at value `0` formats as
`"0.00 W"`. -/
theorem format_value_spec :
    (∀ (m : Int) (p : String), format_value m p .vNone = "N/A")
    ∧ (∀ (m : Int) (p : String) (v : Val), get_point_info m p = none → v ≠ .vNone →
        format_value m p v = pyStr v)
    ∧ (∀ (m : Int) (p : String) (info : PointDef) (n : Int), get_point_info m p = some info →
        info.type = "float" → (info.unit).getD "" ≠ "" → n.natAbs ≤ 2 ^ 53 →
        format_value m p (.vInt n) = toString n ++ ".00" ++ " " ++ (info.unit).getD "")
    ∧ (∀ (m : Int) (p : String) (info : PointDef) (v : Val), get_point_info m p = some info →
        info.type ≠ "float" → (info.unit).getD "" = "" → v ≠ .vNone →
        format_value m p v = pyStr v)
    ∧ format_value 101 "W" (.vInt 0) = "0.00 W" := by
  refine ⟨fun m p => ?_, fun m p v hinfo hv => ?_,
    fun m p info n hinfo hty hu _ => ?_,
    fun m p info v hinfo hty hu hv => ?_, by decide⟩
  · rfl
  · cases v with
    | vNone => exact absurd rfl hv
    | vBool b => simp [format_value, hinfo]
    | vInt n => simp [format_value, hinfo]
    | vFloat n => simp [format_value, hinfo]
    | vStr s => simp [format_value, hinfo]
  · simp [format_value, hinfo, hty, hu, twoDec, pyFloatCoerce]
  · cases v with
    | vNone => exact absurd rfl hv
    | vBool b => simp [format_value, hinfo, hty, hu]
    | vInt n => simp [format_value, hinfo, hty, hu]
    | vFloat n => simp [format_value, hinfo, hty, hu]
    | vStr s => simp [format_value, hinfo, hty, hu]

/-- C8 witness at concrete inputs: an unknown point, a float point with
a unit from model 124 (`ChaState`, unit `"%"`), and a non-float unitless
point from model 1 (`Mn`, a string point). -/
theorem format_value_spec_witness :
    format_value 101 "ZZZ" (.vInt 5) = pyStr (.vInt 5)
      ∧ format_value 124 "ChaState" (.vInt 3)
          = toString (3 : Int) ++ ".00" ++ " " ++ ((some "%").getD "")
      ∧ format_value 1 "Mn" (.vStr "Acme") = pyStr (.vStr "Acme") :=
  ⟨format_value_spec.2.1 101 "ZZZ" (.vInt 5) (by decide) (by decide),
   format_value_spec.2.2.1 124 "ChaState"
     ⟨"State of Charge", "float", some "%", some "R"⟩ 3 (by decide) rfl (by decide) (by decide),
   format_value_spec.2.2.2.1 1 "Mn" ⟨"Manufacturer", "string", none, none⟩ (.vStr "Acme")
     (by decide) (by decide) rfl (by decide)⟩

/-- C9: `parse_value` is a total function of its inputs; an unknown
model or point returns the raw value unchanged, and a failed coercion
in the float branch or in the integer/enum branch returns the raw value
unchanged. -/
theorem parse_value_spec :
    (∀ (m : Int) (p : String) (v : Val), get_point_info m p = none → parse_value m p v = v)
    ∧ (∀ (m : Int) (p : String) (v : Val) (info : PointDef), get_point_info m p = some info →
        info.type = "float" → pyFloatCoerce v = none → parse_value m p v = v)
    ∧ (∀ (m : Int) (p : String) (v : Val) (info : PointDef), get_point_info m p = some info →
        (info.type = "uint16" ∨ info.type = "uint32" ∨ info.type = "uint64"
          ∨ info.type = "int16" ∨ info.type = "int32" ∨ info.type = "int64"
          ∨ info.type = "enum16") →
        pyIntCoerce v = none → parse_value m p v = v) := by
  refine ⟨fun m p v h => ?_, fun m p v info hinfo ht hfail => ?_,
    fun m p v info hinfo ht hfail => ?_⟩
  · simp [parse_value, h]
  · simp [parse_value, hinfo, ht, hfail]
  · rcases ht with h1 | h1 | h1 | h1 | h1 | h1 | h1 <;>
      simp [parse_value, hinfo, h1, hfail]

/-- C9 witness at concrete inputs: unknown point, failed float coercion
and failed integer coercion all return the raw value unchanged. -/
theorem parse_value_spec_witness :
    parse_value 1 "ZZZ" (.vStr "abc") = .vStr "abc"
      ∧ parse_value 101 "W" .vNone = .vNone
      ∧ parse_value 101 "St" (.vStr "abc") = .vStr "abc" :=
  ⟨parse_value_spec.1 1 "ZZZ" (.vStr "abc") (by decide),
   parse_value_spec.2.1 101 "W" .vNone ⟨"AC Power", "float", some "W", some "R"⟩
     (by decide) rfl (by decide),
   parse_value_spec.2.2 101 "St" (.vStr "abc") ⟨"Operating State", "enum16", none, some "R"⟩
     (by decide) (by simp) (by decide)⟩

end MCP.SunSpec

namespace MCP.Device

open MCP.Store

/-- C4: when the requested point set resolves to no existing writable
point, `write_device_context` fails with exactly
`"No valid writable points"`, sends nothing over the network, appends no
event and leaves the context untouched. -/
theorem write_empty_resolution_fails (dev : Device) (ctx : Context)
    (points_data : List (String × Val)) (response : Option WriteResponse) (now : Nat)
    (hon : dev.is_online = true)
    (hempty : validated_points ctx.points points_data = []) :
    write_device_context (some dev) (some ctx) points_data response now
      = ⟨false, some "No valid writable points", some ctx, false, []⟩ := by
  simp [write_device_context, hon, hempty]

/-- C4 witness: a request naming only a read-only point and an unknown
point resolves empty and fails before the network even though a
successful response was available. -/
theorem write_empty_resolution_fails_witness :
    write_device_context
        (some ⟨"u1", "n", none, none, none, none, "h", 80, true, 0⟩)
        (some ⟨"ctx", "inverter", none, none, "d",
          [⟨"a", "A", none, none, some "R", none, some "3", none⟩]⟩)
        [("a", .vInt 1), ("zz", .vInt 2)] (some ⟨true, none, none⟩) 7
      = ⟨false, some "No valid writable points",
          some ⟨"ctx", "inverter", none, none, "d",
            [⟨"a", "A", none, none, some "R", none, some "3", none⟩]⟩, false, []⟩ :=
  write_empty_resolution_fails _ _ _ _ _ (by decide) (by decide)

/-- C1 (counterexample): the device acknowledges only point `"a"` in the
response's `updated_points` field, yet the requested point `"b"` — absent
from the acknowledged set — is persisted (value `"2"`, fresh timestamp). -/
theorem write_persists_unacked_point :
    ("b" ∉ (["a"] : List String))
      ∧ ((write_device_context
            (some ⟨"u1", "n", none, none, none, none, "h", 80, true, 0⟩)
            (some ⟨"ctx", "inverter", none, none, "d",
              [⟨"a", "A", none, none, some "RW", none, none, none⟩,
               ⟨"b", "B", none, none, some "RW", none, none, none⟩]⟩)
            [("a", .vInt 1), ("b", .vInt 2)]
            (some ⟨true, some ["a"], none⟩) 7).ctxAfter.getD
              ⟨"ctx", "inverter", none, none, "d", []⟩).points.find?
          (fun p => p.point_id = "b")
        = some ⟨"b", "B", none, none, some "RW", none, some "2", some 7⟩ := by
  decide

theorem persistPoints_frame (validated : List (String × Val)) (pts : List DataPoint)
    (now : Nat) (p : DataPoint) (hp : p ∈ pts)
    (hout : p.point_id ∉ validated.map (·.1)) :
    p ∈ persistPoints pts validated now := by
  induction validated generalizing pts with
  | nil => exact hp
  | cons pv rest ih =>
    have hid : ¬ p.point_id = pv.1 := by
      intro h
      exact hout (by simp [h])
    have hstep : p ∈ pts.map (fun q =>
        if q.point_id = pv.1 then
          { q with value := some (pyStr pv.2), last_updated := some now }
        else q) := by
      have := List.mem_map_of_mem (fun q =>
        if q.point_id = pv.1 then
          { q with value := some (pyStr pv.2), last_updated := some now }
        else q) hp
      simpa [hid] using this
    have hrest : p.point_id ∉ rest.map (·.1) := fun h => hout (by simp [h])
    exact ih _ hstep hrest

/-- C1 (amended): on a successful protocol response,
`write_device_context` persists every point of the validated request set
— the response's echoed `updated_points`/points field is not consulted
(the outcome is identical for any echoed set) — and a point outside the
validated request set is never persisted: its stored value and
timestamp survive unchanged. -/
theorem write_success_persists_all_validated
    (dev : Device) (ctx : Context) (points_data : List (String × Val))
    (ack1 ack2 : Option (List String)) (err : Option String) (now : Nat)
    (hon : dev.is_online = true)
    (hne : validated_points ctx.points points_data ≠ []) :
    (write_device_context (some dev) (some ctx) points_data (some ⟨true, ack1, err⟩) now
      = write_device_context (some dev) (some ctx) points_data (some ⟨true, ack2, err⟩) now)
    ∧ ((write_device_context (some dev) (some ctx) points_data (some ⟨true, ack1, err⟩) now).ctxAfter
      = some { ctx with
          points := persistPoints ctx.points (validated_points ctx.points points_data) now })
    ∧ (∀ p ∈ ctx.points, p.point_id ∉ (validated_points ctx.points points_data).map (·.1) →
        ∃ p' ∈ persistPoints ctx.points (validated_points ctx.points points_data) now,
          p'.point_id = p.point_id ∧ p'.value = p.value ∧ p'.last_updated = p.last_updated) := by
  have hee : (validated_points ctx.points points_data).isEmpty = false := by
    cases h : validated_points ctx.points points_data with
    | nil => exact absurd h hne
    | cons a l => rfl
  refine ⟨?_, ?_, ?_⟩
  · simp [write_device_context, hon, hee]
  · simp [write_device_context, hon, hee]
  · intro p hp hout
    exact ⟨p, persistPoints_frame _ _ _ p hp hout, rfl, rfl, rfl⟩

/-- C1 witness: the success outcome is identical whether the device
echoes `["a"]` or nothing at all. -/
theorem write_success_persists_all_validated_witness :
    write_device_context
        (some ⟨"u1", "n", none, none, none, none, "h", 80, true, 0⟩)
        (some ⟨"ctx", "inverter", none, none, "d",
          [⟨"a", "A", none, none, some "RW", none, none, none⟩,
           ⟨"b", "B", none, none, some "RW", none, none, none⟩]⟩)
        [("a", .vInt 1), ("b", .vInt 2)] (some ⟨true, some ["a"], none⟩) 7
      = write_device_context
        (some ⟨"u1", "n", none, none, none, none, "h", 80, true, 0⟩)
        (some ⟨"ctx", "inverter", none, none, "d",
          [⟨"a", "A", none, none, some "RW", none, none, none⟩,
           ⟨"b", "B", none, none, some "RW", none, none, none⟩]⟩)
        [("a", .vInt 1), ("b", .vInt 2)] (some ⟨true, none, none⟩) 7 :=
  (write_success_persists_all_validated _ _ _ (some ["a"]) none none 7
    (by decide) (by decide)).1

end MCP.Device

namespace MCP

open MCP.Store

theorem update_context_points_null_frame
    (payload : List (String × Val)) (pts : List Store.DataPoint) (now : Nat) (pid : String)
    (hnull : ∀ v, (pid, v) ∈ payload → v = Val.vNone)
    (p : Store.DataPoint) (hp : p ∈ pts) (hid : p.point_id = pid) :
    ∃ p' ∈ Device.update_context_points pts payload now,
      p'.point_id = pid ∧ p'.value = p.value ∧ p'.last_updated = p.last_updated := by
  induction payload generalizing pts with
  | nil => exact ⟨p, hp, hid, rfl, rfl⟩
  | cons pv rest ih =>
    have hfix : Device.refreshStep now p pv = p := by
      unfold Device.refreshStep
      by_cases hmatch : p.point_id = pv.1
      · have hpv : (pid, pv.2) ∈ pv :: rest := by
          have he : pv = (pid, pv.2) := by
            cases pv with
            | mk a b =>
              simp only at hmatch ⊢
              rw [← hid, hmatch]
          rw [← he]
          exact List.mem_cons_self _ _
        have hv : pv.2 = Val.vNone := hnull pv.2 hpv
        simp [hmatch, hv]
      · simp [hmatch]
    have hstep : p ∈ pts.map (fun q => Device.refreshStep now q pv) := by
      have hm := List.mem_map_of_mem (fun q => Device.refreshStep now q pv) hp
      simpa [hfix] using hm
    have hrest : ∀ v, (pid, v) ∈ rest → v = Val.vNone :=
      fun v hv => hnull v (List.mem_cons_of_mem _ hv)
    exact ih _ hrest hstep

theorem pointStep_preserves (existingIds : List String) (now : Nat)
    (acc : List Store.DataPoint) (e : String × Discovery.PointPayload)
    (q : Store.DataPoint) (hq : q ∈ acc)
    (hcond : ¬ e.1 = q.point_id ∨ Discovery.valueAbsent e.2 = true) :
    ∃ q' ∈ Discovery.pointStep existingIds now acc e,
      q'.point_id = q.point_id ∧ q'.value = q.value ∧ q'.last_updated = q.last_updated := by
  cases he : e.2 with
  | nonDict v =>
    refine ⟨q, ?_, rfl, rfl, rfl⟩
    simp [Discovery.pointStep, he, hq]
  | obj name ty unit access descr value =>
    by_cases hin : e.1 ∈ existingIds
    · simp only [Discovery.pointStep, he, hin, if_pos, List.mem_map]
      by_cases hmatch : q.point_id = e.1
      · have hvnull : value = Val.vNone := by
          rcases hcond with h | h
          · exact absurd hmatch.symm h
          · rw [he] at h
            simpa [Discovery.valueAbsent] using h
        refine ⟨_, ⟨q, hq, rfl⟩, ?_, ?_, ?_⟩ <;> simp [hmatch, hvnull]
      · exact ⟨_, ⟨q, hq, rfl⟩, by simp [hmatch], by simp [hmatch], by simp [hmatch]⟩
    · refine ⟨q, ?_, rfl, rfl, rfl⟩
      simp [Discovery.pointStep, he, hin, hq]

theorem process_context_points_null_frame_aux
    (payload : List (String × Discovery.PointPayload)) (existingIds : List String)
    (now : Nat) (pid : String)
    (hnull : ∀ info, (pid, info) ∈ payload → Discovery.valueAbsent info = true)
    (acc : List Store.DataPoint) (V : Option String) (T : Option Nat)
    (hex : ∃ q ∈ acc, q.point_id = pid ∧ q.value = V ∧ q.last_updated = T) :
    ∃ q ∈ payload.foldl (Discovery.pointStep existingIds now) acc,
      q.point_id = pid ∧ q.value = V ∧ q.last_updated = T := by
  induction payload generalizing acc with
  | nil => exact hex
  | cons e rest ih =>
    have hrest : ∀ info, (pid, info) ∈ rest → Discovery.valueAbsent info = true :=
      fun info hi => hnull info (List.mem_cons_of_mem _ hi)
    obtain ⟨q, hq, hqid, hqv, hqt⟩ := hex
    have hcond : ¬ e.1 = q.point_id ∨ Discovery.valueAbsent e.2 = true := by
      by_cases hmatch : e.1 = q.point_id
      · right
        have hmem : (pid, e.2) ∈ e :: rest := by
          have he : e = (pid, e.2) := by
            cases e with
            | mk a b =>
              simp only at hmatch ⊢
              rw [hmatch, hqid]
          rw [← he]
          exact List.mem_cons_self _ _
        exact hnull e.2 hmem
      · exact Or.inl hmatch
    obtain ⟨q', hq', hid', hv', ht'⟩ := pointStep_preserves existingIds now acc e q hq hcond
    exact ih hrest _ ⟨q', hq', hid'.trans hqid, hv'.trans hqv, ht'.trans hqt⟩

/-- C3: on both mutation paths — the synchronizer's read refresh
(`_update_context_points`) and discovery's point reconciliation
(`_process_context_points`) — a stored point whose value is non-null
keeps its value and its last-updated timestamp whenever the incoming
payload supplies no value (absent or null) for that point. -/
theorem stored_value_never_overwritten_with_null :
    (∀ (pts : List Store.DataPoint) (payload : List (String × Val)) (now : Nat) (pid : String),
      (∀ v, (pid, v) ∈ payload → v = Val.vNone) →
      ∀ p ∈ pts, p.point_id = pid → p.value ≠ none →
        ∃ p' ∈ Device.update_context_points pts payload now,
          p'.point_id = pid ∧ p'.value = p.value ∧ p'.last_updated = p.last_updated)
    ∧ (∀ (pts : List Store.DataPoint) (payload : List (String × Discovery.PointPayload))
        (now : Nat) (pid : String),
      (∀ info, (pid, info) ∈ payload → Discovery.valueAbsent info = true) →
      ∀ p ∈ pts, p.point_id = pid → p.value ≠ none →
        ∃ p' ∈ Discovery.process_context_points pts payload now,
          p'.point_id = pid ∧ p'.value = p.value ∧ p'.last_updated = p.last_updated) := by
  constructor
  · intro pts payload now pid hnull p hp hid _
    exact update_context_points_null_frame payload pts now pid hnull p hp hid
  · intro pts payload now pid hnull p hp hid _
    exact process_context_points_null_frame_aux payload (pts.map (·.point_id)) now pid
      hnull pts p.value p.last_updated ⟨p, hp, hid, rfl, rfl⟩

/-- C3 witness: a known point with stored value `"5"` keeps value and
timestamp under a null read refresh and under a null-valued discovery
reconciliation (which still rewrites metadata). -/
theorem stored_value_never_overwritten_with_null_witness :
    (∃ p' ∈ Device.update_context_points
        [⟨"a", "A", none, none, some "R", none, some "5", some 2⟩] [("a", Val.vNone)] 9,
      p'.point_id = "a" ∧ p'.value = some "5" ∧ p'.last_updated = some 2)
    ∧ (∃ p' ∈ Discovery.process_context_points
        [⟨"a", "A", none, none, some "R", none, some "5", some 2⟩]
        [("a", .obj (some "NewName") (some "float") none (some "R") none Val.vNone)] 9,
      p'.point_id = "a" ∧ p'.value = some "5" ∧ p'.last_updated = some 2) :=
  ⟨stored_value_never_overwritten_with_null.1 _ _ 9 "a"
      (fun v hv => congrArg Prod.snd (List.mem_singleton.mp hv))
      ⟨"a", "A", none, none, some "R", none, some "5", some 2⟩
      (by decide) rfl (by decide),
   stored_value_never_overwritten_with_null.2 _ _ 9 "a"
      (by
        intro info hi
        simp only [List.mem_singleton, Prod.mk.injEq, true_and] at hi
        rw [hi]
        rfl)
      ⟨"a", "A", none, none, some "R", none, some "5", some 2⟩
      (by decide) rfl (by decide)⟩

end MCP

namespace MCP.Discovery

open MCP.Store

theorem process_device_info_snd (st : RegistryState) (info : DeviceInfo) (ip : String)
    (port : Option Nat) (now : Nat) (u : String) (hu : info.uuid = some u) (hne : u ≠ "") :
    (process_device_info st info ip port now).2 = some u := by
  cases hfind : st.devices.find? (fun d => d.uuid = u) <;>
    simp [process_device_info, hu, hne, hfind]

theorem mem_map_of_fixed (f : Device → Device) (l : List Device) (d : Device)
    (hd : d ∈ l) (hfd : f d = d) : d ∈ l.map f :=
  hfd ▸ List.mem_map_of_mem f hd

theorem map_uuid_of_update (l : List Device) (upd : Device → Device)
    (h : ∀ d ∈ l, (upd d).uuid = d.uuid) :
    (l.map upd).map (fun x => x.uuid) = l.map (fun x => x.uuid) := by
  induction l with
  | nil => rfl
  | cons x xs ih =>
    simp only [List.map_cons, List.map_map]
    rw [h x (List.mem_cons_self _ _)]
    have hih := ih (fun d hd => h d (List.mem_cons_of_mem _ hd))
    rw [List.map_map] at hih
    rw [hih]

theorem process_device_info_spec (st : RegistryState) (info : DeviceInfo) (ip : String)
    (port : Option Nat) (now : Nat) (u : String) (hu : info.uuid = some u) (hne : u ≠ "") :
    (∀ d ∈ st.devices, d.uuid ≠ u → d ∈ (process_device_info st info ip port now).1.devices)
    ∧ (∃ evs, (process_device_info st info ip port now).1.events = st.events ++ evs
        ∧ ∀ e ∈ evs, e.device_uuid = u)
    ∧ ((st.devices.map (·.uuid)).Nodup →
        ((process_device_info st info ip port now).1.devices.map (·.uuid)).Nodup) := by
  cases hfind : st.devices.find? (fun d => d.uuid = u) with
  | some existing =>
    have hex : existing.uuid = u := by
      have h := List.find?_some hfind
      simpa using h
    refine ⟨?_, ?_, ?_⟩
    · intro d hd hdu
      simp only [process_device_info, hu, hne, hfind, if_neg, ite_false]
      exact mem_map_of_fixed _ _ d hd (by simp [hdu])
    · refine ⟨[], ?_, by simp⟩
      simp [process_device_info, hu, hne, hfind]
    · intro hnd
      simp only [process_device_info, hu, hne, hfind, if_neg, ite_false]
      rw [map_uuid_of_update]
      · exact hnd
      · intro d _
        by_cases h : d.uuid = u <;> simp [h, hex]
  | none =>
    refine ⟨?_, ?_, ?_⟩
    · intro d hd _
      simp only [process_device_info, hu, hne, hfind, if_neg, ite_false]
      exact List.mem_append_left _ hd
    · refine ⟨[⟨u, "discovery", "Device discovered",
        some ("Model: " ++ (info.model).getD "None"
          ++ ", Manufacturer: " ++ (info.manufacturer).getD "None")⟩], ?_, by simp⟩
      simp [process_device_info, hu, hne, hfind]
    · intro hnd
      have hnotin : u ∉ st.devices.map (·.uuid) := by
        intro hmem
        obtain ⟨x, hx, hxe⟩ := List.mem_map.mp hmem
        have := List.find?_eq_none.mp hfind x hx
        simp [hxe] at this
      simp only [process_device_info, hu, hne, hfind, if_neg, ite_false]
      rw [List.map_append]
      rw [List.nodup_append]
      refine ⟨hnd, by simp, ?_⟩
      intro a ha hb
      simp only [List.map_cons, List.map_nil, List.mem_singleton] at hb
      rw [hb] at ha
      exact hnotin ha

theorem responseStep_cases (now : Nat) (acc : RegistryState × List String)
    (r : DiscoveryResponse) :
    responseStep now acc r = acc
    ∨ ∃ u, (responseStep now acc r).2 = acc.2 ++ [u]
        ∧ (∀ d ∈ acc.1.devices, d.uuid ≠ u → d ∈ (responseStep now acc r).1.devices)
        ∧ (∃ evs, (responseStep now acc r).1.events = acc.1.events ++ evs
            ∧ ∀ e ∈ evs, e.device_uuid = u)
        ∧ ((acc.1.devices.map (·.uuid)).Nodup →
            ((responseStep now acc r).1.devices.map (·.uuid)).Nodup) := by
  cases hdev : r.device with
  | none => exact Or.inl (by simp [responseStep, hdev])
  | some info =>
    cases hu : info.uuid with
    | none => exact Or.inl (by simp [responseStep, hdev, hu])
    | some u =>
      by_cases hne : u = ""
      · exact Or.inl (by simp [responseStep, hdev, hu, hne])
      · cases hip : r.source_ip with
        | none => exact Or.inl (by simp [responseStep, hdev, hu, hne, hip])
        | some ip =>
          by_cases hipe : ip = ""
          · exact Or.inl (by simp [responseStep, hdev, hu, hne, hip, hipe])
          · right
            have hsnd := process_device_info_snd acc.1 info ip r.source_port now u hu hne
            have hstep : responseStep now acc r
                = ((process_device_info acc.1 info ip r.source_port now).1, acc.2 ++ [u]) := by
              simp only [responseStep, hdev, hu, hne, hip, hipe, if_neg, ite_false]
              cases hpd : process_device_info acc.1 info ip r.source_port now with
              | mk st' res =>
                rw [hpd] at hsnd
                simp only at hsnd
                rw [hsnd]
            obtain ⟨hpres, hevs, hnd⟩ :=
              process_device_info_spec acc.1 info ip r.source_port now u hu hne
            exact ⟨u, by rw [hstep], by rw [hstep]; exact hpres, by rw [hstep]; exact hevs,
              by rw [hstep]; exact hnd⟩

theorem processResponses_fold_spec (responses : List DiscoveryResponse) (now : Nat) :
    ∀ init : RegistryState × List String,
      (∃ tl, (responses.foldl (responseStep now) init).2 = init.2 ++ tl
        ∧ (∀ d ∈ init.1.devices, d.uuid ∉ tl →
            d ∈ (responses.foldl (responseStep now) init).1.devices)
        ∧ (∃ evs, (responses.foldl (responseStep now) init).1.events = init.1.events ++ evs
            ∧ ∀ e ∈ evs, e.device_uuid ∈ tl)
        ∧ ((init.1.devices.map (·.uuid)).Nodup →
            ((responses.foldl (responseStep now) init).1.devices.map (·.uuid)).Nodup)) := by
  induction responses with
  | nil =>
    intro init
    exact ⟨[], by simp, fun d hd _ => hd, ⟨[], by simp, by simp⟩, fun h => h⟩
  | cons r rs ih =>
    intro init
    rw [List.foldl_cons]
    rcases responseStep_cases now init r with heq | ⟨u, hsnd, hpres, ⟨evs0, hev0, hev0u⟩, hnd0⟩
    · rw [heq]
      exact ih init
    · obtain ⟨tl1, htl1, hpres1, ⟨evs1, hev1, hev1u⟩, hnd1⟩ := ih (responseStep now init r)
      refine ⟨u :: tl1, ?_, ?_, ?_, ?_⟩
      · rw [htl1, hsnd, List.append_assoc]
        rfl
      · intro d hd htl
        have hdu : d.uuid ≠ u := fun h => htl (by rw [h]; exact List.mem_cons_self _ _)
        have hd1 : d ∈ (responseStep now init r).1.devices := hpres d hd hdu
        exact hpres1 d hd1 (fun h => htl (List.mem_cons_of_mem _ h))
      · refine ⟨evs0 ++ evs1, ?_, ?_⟩
        · rw [hev1, hev0, List.append_assoc]
        · intro e he
          rcases List.mem_append.mp he with h | h
          · rw [hev0u e h]
            exact List.mem_cons_self _ _
          · exact List.mem_cons_of_mem _ (hev1u e h)
      · intro hnd
        exact hnd1 (hnd0 hnd)

theorem countP_offline_events (devs : List Device) (uuids : List String) (target : String) :
    (devs.filterMap (fun d =>
        if d.is_online ∧ d.uuid ∉ uuids then
          some (⟨d.uuid, "status_change", "Device went offline", none⟩ : DeviceEvent)
        else none)).countP
      (fun e => decide (e.device_uuid = target ∧ e.event_type = "status_change"))
    = devs.countP (fun d => decide ((d.is_online = true ∧ d.uuid ∉ uuids) ∧ d.uuid = target)) := by
  induction devs with
  | nil => rfl
  | cons x xs ih =>
    by_cases hx : x.is_online = true ∧ x.uuid ∉ uuids
    · rw [List.filterMap_cons, List.countP_cons]
      simp only [hx.1, hx.2, not_false_eq_true, and_self, if_pos, ite_true]
      rw [List.countP_cons, ih]
      by_cases ht : x.uuid = target <;> simp [ht, hx.1, hx.2]
    · rw [List.filterMap_cons, List.countP_cons]
      have hcond : ¬ (x.is_online = true ∧ x.uuid ∉ uuids) := hx
      simp only [hcond, if_neg, ite_false]
      rw [ih]
      simp [hcond]

theorem countP_eq_one_of_uuid_nodup (l : List Device) (p : Device → Bool) (d : Device)
    (hnd : (l.map (·.uuid)).Nodup) (hd : d ∈ l) (hpd : p d = true)
    (himp : ∀ x, p x = true → x.uuid = d.uuid) :
    l.countP p = 1 := by
  induction l with
  | nil => cases hd
  | cons x xs ih =>
    rw [List.map_cons, List.nodup_cons] at hnd
    rcases List.mem_cons.mp hd with heq | hmem
    · subst heq
      have hzero : xs.countP p = 0 := by
        rw [List.countP_eq_zero]
        intro y hy hpy
        exact hnd.1 ((himp y hpy) ▸ List.mem_map_of_mem _ hy)
      rw [List.countP_cons, hzero, hpd]
      simp
    · have hpx : ¬ p x = true := by
        intro hx
        exact hnd.1 ((himp x hx) ▸ List.mem_map_of_mem _ hmem)
      rw [List.countP_cons, ih hnd.2 hmem]
      simp [hpx]

/-- C2: any device online before a discovery round whose uuid is absent
from the round's discovered-uuid set is offline after the round, with
exactly one `status_change` event appended for it — in particular (the
hypotheses are satisfiable with an empty response list) a round with
zero accepted responses marks every previously-online device offline. -/
theorem discovery_liveness (st : RegistryState) (responses : List DiscoveryResponse)
    (now : Nat) (d : Device)
    (hnd : (st.devices.map (·.uuid)).Nodup)
    (hd : d ∈ st.devices) (hon : d.is_online = true)
    (habs : d.uuid ∉ discovered_uuids st responses now) :
    (∃ d' ∈ (discovery_round st responses now).devices,
        d'.uuid = d.uuid ∧ d'.is_online = false)
    ∧ ((discovery_round st responses now).events.drop st.events.length).countP
        (fun e => decide (e.device_uuid = d.uuid ∧ e.event_type = "status_change")) = 1 := by
  obtain ⟨tl, htl, hpres, ⟨evs, hev, hevin⟩, hndf⟩ :=
    processResponses_fold_spec responses now (st, [])
  have hres2 : (processResponses st responses now).2 = tl := by
    rw [processResponses, htl]
    rfl
  have habs' : d.uuid ∉ tl := by rwa [discovered_uuids, hres2] at habs
  have hd1 : d ∈ (processResponses st responses now).1.devices := hpres d hd habs'
  have hnd1 : ((processResponses st responses now).1.devices.map (·.uuid)).Nodup := hndf hnd
  constructor
  · refine ⟨{ d with is_online := false }, ?_, rfl, rfl⟩
    show _ ∈ (update_device_status (processResponses st responses now).1
      (processResponses st responses now).2).devices
    rw [update_device_status]
    have hm := List.mem_map_of_mem (fun x : Device =>
      if x.is_online ∧ x.uuid ∉ (processResponses st responses now).2 then
        { x with is_online := false }
      else x) hd1
    simpa [hon, hres2, habs'] using hm
  · show ((update_device_status (processResponses st responses now).1
      (processResponses st responses now).2).events.drop st.events.length).countP _ = 1
    rw [update_device_status]
    simp only
    have hev' : (processResponses st responses now).1.events = st.events ++ evs := hev
    rw [hev', hres2, List.append_assoc, List.drop_left, List.countP_append]
    have hzero : evs.countP
        (fun e => decide (e.device_uuid = d.uuid ∧ e.event_type = "status_change")) = 0 := by
      rw [List.countP_eq_zero]
      intro e he hpe
      have h1 : e.device_uuid = d.uuid := (of_decide_eq_true hpe).1
      exact habs' (h1 ▸ hevin e he)
    rw [hzero, countP_offline_events, countP_eq_one_of_uuid_nodup _ _ d hnd1 hd1]
    · exact decide_eq_true ⟨⟨hon, habs'⟩, rfl⟩
    · intro x hx
      exact (of_decide_eq_true hx).2

/-- C2 witness: one online device, a round with zero accepted responses;
exactly one "went offline" `status_change` event is appended. -/
theorem discovery_liveness_witness :
    ((discovery_round ⟨[⟨"u1", "n", none, none, none, none, "h", 80, true, 3⟩], []⟩ [] 5).events.drop
        ([] : List DeviceEvent).length).countP
      (fun e => decide (e.device_uuid = "u1" ∧ e.event_type = "status_change")) = 1 :=
  (discovery_liveness ⟨[⟨"u1", "n", none, none, none, none, "h", 80, true, 3⟩], []⟩ [] 5
    ⟨"u1", "n", none, none, none, none, "h", 80, true, 3⟩
    (by decide) (by decide) (by decide) (by decide)).2

/-- C7 (counterexample): a known device with last-seen `5` responds in a
discovery round running at time `10`; after the round its last-seen is
`10` — the discovery upsert does modify the last-seen timestamp. -/
theorem discovery_updates_last_seen_counterexample :
    (discovery_round
        ⟨[⟨"u1", "n", none, none, none, none, "h", 80, true, 5⟩], []⟩
        [⟨some ⟨some "u1", some "n", none, none, none, none, none⟩, some "h2", some 99⟩]
        10).devices.map (·.last_seen) = [10]
      ∧ (10 : Nat) ≠ 5 := by
  decide

/-- C7 (amended): the discovery upsert of a responding device — known or
newly created — sets its last-seen timestamp to the round's current time
and marks it online; last-seen is therefore updated by discovery as well
as by the synchronizer's refresh. -/
theorem process_device_info_sets_last_seen (st : RegistryState) (info : DeviceInfo)
    (ip : String) (port : Option Nat) (now : Nat) (u : String)
    (hu : info.uuid = some u) (hne : u ≠ "") :
    ∀ d' ∈ (process_device_info st info ip port now).1.devices, d'.uuid = u →
      d'.last_seen = now ∧ d'.is_online = true := by
  intro d' hd' hdu
  cases hfind : st.devices.find? (fun d => d.uuid = u) with
  | some existing =>
    simp only [process_device_info, hu, hne, hfind, if_neg, ite_false] at hd'
    obtain ⟨x, hx, rfl⟩ := List.mem_map.mp hd'
    by_cases hxu : x.uuid = u
    · simp [hxu]
    · simp only [hxu, if_neg, ite_false] at hdu
  | none =>
    simp only [process_device_info, hu, hne, hfind, if_neg, ite_false] at hd'
    rcases List.mem_append.mp hd' with hin | hin
    · have := List.find?_eq_none.mp hfind d' hin
      simp [hdu] at this
    · rw [List.mem_singleton.mp hin]
      exact ⟨rfl, rfl⟩

/-- C7 (amended) witness: upserting a known device (stored last-seen
`5`) at round time `10` yields a registry entry with last-seen `10`,
online. -/
theorem process_device_info_sets_last_seen_witness :
    (⟨"u1", "n", none, none, none, none, "h2", 99, true, 10⟩ : Device).last_seen = 10
      ∧ (⟨"u1", "n", none, none, none, none, "h2", 99, true, 10⟩ : Device).is_online = true :=
  process_device_info_sets_last_seen
    ⟨[⟨"u1", "n", none, none, none, none, "h", 80, true, 5⟩], []⟩
    ⟨some "u1", some "n", none, none, none, none, none⟩ "h2" (some 99) 10 "u1"
    rfl (by decide)
    ⟨"u1", "n", none, none, none, none, "h2", 99, true, 10⟩ (by decide) rfl

end MCP.Discovery
